import Mathlib

/-!
# Verification of the ptmalloc allocator (glibc malloc study repository)

Shallow embedding of the allocator routines of `src/unnamed/part_001`
(a commented copy of glibc's `malloc.c` with the tcache enabled), for the
64-bit Linux configuration that the file's own defaults select:

* `INTERNAL_SIZE_T = size_t`, so `SIZE_SZ = 8`;
* `MALLOC_ALIGNMENT = 2 * SIZE_SZ = 16`, hence `MALLOC_ALIGN_MASK = 15`;
* `USE_TCACHE = 1`, `TRIM_FASTBINS = 0`, `REALLOC_ZERO_BYTES_FREES = 1`,
  `MALLOC_DEBUG` off, `using_malloc_checking = 0`;
* machine words are modelled as `Nat` with explicit `% 2^64` where the C
  code's unsigned wrap-around matters.

Bit operations of the source are translated to arithmetic on `Nat`:
for a word `w < 2^64`, `w & ~SIZE_BITS` is `w - w % 8`, `w & 15` is
`w % 16`, bit 0 (`PREV_INUSE`) is `w % 2`, and bit 1 (`IS_MMAPPED`) is
`w / 2 % 2`.
-/

namespace MallocModel

/-! ## Platform constants (malloc.c defaults on 64-bit Linux) -/

/-- `SIZE_SZ = sizeof (INTERNAL_SIZE_T)` on the modelled platform. -/
def SIZE_SZ : Nat := 8

/-- `MALLOC_ALIGNMENT`, the alignment quantum (`2 * SIZE_SZ` here). -/
def MALLOC_ALIGNMENT : Nat := 16

/-- `MALLOC_ALIGN_MASK = MALLOC_ALIGNMENT - 1`. -/
def MALLOC_ALIGN_MASK : Nat := MALLOC_ALIGNMENT - 1

/-- `MIN_CHUNK_SIZE = offsetof (struct malloc_chunk, fd_nextsize)`:
two header words plus the two bin pointers, 32 bytes on 64-bit. -/
def MIN_CHUNK_SIZE : Nat := 32

/-- `MINSIZE`, the smallest allocatable chunk
(`(MIN_CHUNK_SIZE + MALLOC_ALIGN_MASK) & ~MALLOC_ALIGN_MASK` = 32). -/
def MINSIZE : Nat := 32

/-- One past the largest `size_t` / `uintptr_t` value: `2^64`. -/
def U64 : Nat := 2 ^ 64

/-- `PTRDIFF_MAX` on a 64-bit platform. -/
def PTRDIFF_MAX : Nat := 2 ^ 63 - 1

/-- Low flag bit: previous adjacent chunk is in use. -/
def PREV_INUSE : Nat := 1

/-- Flag bit 1: chunk was obtained with `mmap()`. -/
def IS_MMAPPED : Nat := 2

/-- Flag bit 2: chunk belongs to a non-main arena. -/
def NON_MAIN_ARENA : Nat := 4

/-- `chunksize_nomask (p)`: the raw size-and-flags word, untouched. -/
def chunksize_nomaskW (w : Nat) : Nat := w

/-- `chunksize (p) = chunksize_nomask (p) & ~SIZE_BITS`: clear the three
low flag bits.  For `w < 2^64` the C expression equals `w - w % 8`. -/
def chunksizeW (w : Nat) : Nat := w - w % 8

/-- `prev_inuse (p) = p->mchunk_size & PREV_INUSE`, as a proposition. -/
def prevInuseW (w : Nat) : Prop := w % 2 = 1

/-- `chunk_is_mmapped (p) = p->mchunk_size & IS_MMAPPED`, as a
proposition (bit 1 of the size word). -/
def chunkIsMmappedW (w : Nat) : Prop := w / 2 % 2 = 1

instance (w : Nat) : Decidable (prevInuseW w) := by unfold prevInuseW; infer_instance

instance (w : Nat) : Decidable (chunkIsMmappedW w) := by unfold chunkIsMmappedW; infer_instance

/-! ## Request-to-size conversion (malloc.c lines 1206-1222) -/

/-- `request2size (req)`: pad a user request with one header word, round
up to the alignment quantum, floor at `MINSIZE`.  The C source computes in
`size_t`, so the sum is reduced `% 2^64`; the final `& ~MALLOC_ALIGN_MASK`
is the subtraction of the low four bits. -/
def request2size (req : Nat) : Nat :=
  let t : Nat := (req + SIZE_SZ + MALLOC_ALIGN_MASK) % U64
  if t < MINSIZE then MINSIZE else t - t % MALLOC_ALIGNMENT

/-- `checked_request2size (req, &sz)` (lines 1215-1222): fail if the raw
request exceeds `PTRDIFF_MAX`, otherwise hand back `request2size (req)`. -/
def checked_request2size (req : Nat) : Option Nat :=
  if req > PTRDIFF_MAX then none else some (request2size req)

/-- Modelled from the spec's words, for comparison with the code: the
conversion-failure condition as the specification states it — "the
request-to-size conversion fails when the padded value would exceed a
signed pointer-difference ceiling". -/
def specPaddedExceedsCeiling (req : Nat) : Prop :=
  request2size req > PTRDIFF_MAX

instance (req : Nat) : Decidable (specPaddedExceedsCeiling req) := by
  unfold specPaddedExceedsCeiling; infer_instance

/-- Outcome of the size gate at the top of `__libc_malloc`
(lines 3173-3179): either the `ENOMEM`-and-null early return, or the
padded size with which the allocation proceeds. -/
inductive MallocSizeGate where
  | enomemNull : MallocSizeGate
  | proceed (tbytes : Nat) : MallocSizeGate
  deriving DecidableEq

/-- The first act of `__libc_malloc (bytes)` after the hook check: run
`checked_request2size`; on failure set `errno = ENOMEM` and return null
before touching any allocator state. -/
def libcMallocSizeGate (bytes : Nat) : MallocSizeGate :=
  match checked_request2size bytes with
  | none => .enomemNull
  | some t => .proceed t

/-! ## Bin indexing (malloc.c lines 1436-1482) -/

/-- `NSMALLBINS = 64`. -/
def NSMALLBINS : Nat := 64

/-- `SMALLBIN_WIDTH = MALLOC_ALIGNMENT`. -/
def SMALLBIN_WIDTH : Nat := MALLOC_ALIGNMENT

/-- `SMALLBIN_CORRECTION = (MALLOC_ALIGNMENT > 2 * SIZE_SZ)`, which is 0
in the modelled configuration. -/
def SMALLBIN_CORRECTION : Nat := 0

/-- `MIN_LARGE_SIZE = (NSMALLBINS - SMALLBIN_CORRECTION) * SMALLBIN_WIDTH`. -/
def MIN_LARGE_SIZE : Nat := (NSMALLBINS - SMALLBIN_CORRECTION) * SMALLBIN_WIDTH

/-- `in_smallbin_range (sz)`: the request is served by the small bins. -/
def in_smallbin_range (sz : Nat) : Prop := sz < MIN_LARGE_SIZE

instance (sz : Nat) : Decidable (in_smallbin_range sz) := by
  unfold in_smallbin_range; infer_instance

/-- `largebin_index_64 (sz)` (lines 1468-1474): the piecewise-logarithmic
large-bin index used when `SIZE_SZ == 8`, translated shift for shift. -/
def largebin_index_64 (sz : Nat) : Nat :=
  if sz >>> 6 ≤ 48 then 48 + (sz >>> 6)
  else if sz >>> 9 ≤ 20 then 91 + (sz >>> 9)
  else if sz >>> 12 ≤ 10 then 110 + (sz >>> 12)
  else if sz >>> 15 ≤ 4 then 119 + (sz >>> 15)
  else if sz >>> 18 ≤ 2 then 124 + (sz >>> 18)
  else 126

/-! ## `musable` (malloc.c lines 5105-5127) -/

/-- The values `musable` reads about the chunk behind a non-null user
pointer: its raw size-and-flags word, whether its address lies in the
dumped main-arena range (`DUMPED_MAIN_ARENA_CHUNK`), and the
`PREV_INUSE` bit of the physically next chunk (what `inuse (p)` reads). -/
structure UsableChunk where
  sizeWord : Nat
  dumped : Bool
  nextPrevInuse : Bool
  deriving DecidableEq

/-- `musable (mem)` for the default build (`using_malloc_checking = 0`):
null yields 0; an mmapped chunk yields `chunksize - SIZE_SZ` when dumped
and `chunksize - 2 * SIZE_SZ` otherwise; an in-use arena chunk yields
`chunksize - SIZE_SZ`; anything else yields 0. -/
def musable (mem : Option UsableChunk) : Nat :=
  match mem with
  | none => 0
  | some p =>
    if chunkIsMmappedW p.sizeWord then
      if p.dumped then chunksizeW p.sizeWord - SIZE_SZ
      else chunksizeW p.sizeWord - 2 * SIZE_SZ
    else if p.nextPrevInuse then chunksizeW p.sizeWord - SIZE_SZ
    else 0

/-! ## The tcache counters and their mutations

Every mutation of `tcache->counts` in the source is one of:
`tcache_put` (line 3062, increments) called from `_int_free` (line 4464,
guarded by `counts[tc_idx] < mp_.tcache_count`), from the fast-bin and
small-bin stash loops of `_int_malloc` (lines 3763-3775 and 3827-3841,
loop condition `counts[tc_idx] < mp_.tcache_count`), and from the
unsorted-bin exact fit (line 3996, guarded at line 3994); or `tcache_get`
(line 3073, decrements) called only with a non-empty bucket; or the
`memset` to zero in `tcache_init` (line 3137). -/

/-- The per-thread cache counters, one per bucket index. -/
structure TcacheCounts where
  counts : Nat → Nat

/-- The bucket-count mutations the source performs, one constructor per
call-site shape. -/
inductive TcacheOp where
  /-- `_int_free`: one guarded `tcache_put` into bucket `i`. -/
  | freePut (i : Nat) : TcacheOp
  /-- `tcache_get` from a bucket the caller checked to be non-empty. -/
  | getFrom (i : Nat) : TcacheOp
  /-- a stash loop: keep moving bin chunks (at most `avail` of them, the
  bin's population) into bucket `i` while the bucket is below the cap. -/
  | stashInto (i : Nat) (avail : Nat) : TcacheOp
  /-- unsorted-bin exact fit: one guarded `tcache_put` into bucket `i`. -/
  | unsortedPut (i : Nat) : TcacheOp

/-- Resulting count of a stash loop that starts at `c` with `avail`
chunks available in the source bin, cap `cap`. -/
def stashCount (cap c avail : Nat) : Nat :=
  match avail with
  | 0 => c
  | a + 1 => if c < cap then stashCount cap (c + 1) a else c

/-- One mutation step on the counters, cap `cap` (`mp_.tcache_count`). -/
def tcacheStep (cap : Nat) (s : TcacheCounts) : TcacheOp → TcacheCounts
  | .freePut i =>
    if s.counts i < cap then ⟨fun j => if j = i then s.counts i + 1 else s.counts j⟩ else s
  | .getFrom i =>
    if 0 < s.counts i then ⟨fun j => if j = i then s.counts i - 1 else s.counts j⟩ else s
  | .stashInto i avail => ⟨fun j => if j = i then stashCount cap (s.counts i) avail else s.counts j⟩
  | .unsortedPut i =>
    if s.counts i < cap then ⟨fun j => if j = i then s.counts i + 1 else s.counts j⟩ else s

/-- Run a sequence of mutations. -/
def tcacheRun (cap : Nat) (s : TcacheCounts) : List TcacheOp → TcacheCounts
  | [] => s
  | op :: ops => tcacheRun cap (tcacheStep cap s op) ops

/-- The state `tcache_init` leaves behind: all buckets empty. -/
def tcacheInit : TcacheCounts := ⟨fun _ => 0⟩

/-- `TCACHE_FILL_COUNT`, the default per-bucket cap. -/
def TCACHE_FILL_COUNT : Nat := 7

/-- The default of `mp_.tcache_count` (malloc.c line 1880). -/
def defaultTcacheCount : Nat := TCACHE_FILL_COUNT

/-! ## The entry of `_int_free` (malloc.c lines 4405-4549)

`__libc_free` diverts page-mapped chunks to `munmap_chunk` before calling
`_int_free`, so this model covers the non-mmapped chunks the claims are
about.  The modelled build is single-threaded (`SINGLE_THREAD_P`), which
removes the lock-retry re-read at lines 4497-4503 (the re-read sees the
same memory) and selects the non-CAS fast-bin push at lines 4521-4529. -/

/-- `csize2tidx (x) = (x - MINSIZE + MALLOC_ALIGNMENT - 1) / MALLOC_ALIGNMENT`.
Every call site passes `x ≥ MINSIZE`, where this agrees with the C
`size_t` arithmetic. -/
def csize2tidx (x : Nat) : Nat :=
  (x - MINSIZE + MALLOC_ALIGNMENT - 1) / MALLOC_ALIGNMENT

/-- `fastbin_index (sz) = (sz >> 4) - 2` on 64-bit. -/
def fastbin_index (sz : Nat) : Nat := (sz >>> 4) - 2

/-- `free_perturb (p, n)` (lines 1978-1983): the byte the released
payload is overwritten with — `none` when `perturb_byte` is zero (no
`memset` happens). -/
def free_perturbFill (perturb : Nat) : Option Nat :=
  if perturb ≠ 0 then some perturb else none

/-- `alloc_perturb (p, n)` (lines 1971-1976): the byte a freshly
allocated payload is overwritten with — `perturb_byte ^ 0xff`, or `none`
when `perturb_byte` is zero. -/
def alloc_perturbFill (perturb : Nat) : Option Nat :=
  if perturb ≠ 0 then some (perturb ^^^ 255) else none

/-- The allocator state `_int_free` consults, gathered into one record:
the thread's tcache (`tcache != NULL`, its address for the `key`
comparison, bucket contents and counts, `mp_.tcache_bins`,
`mp_.tcache_count`), the arena (`get_max_fast ()`, `av->system_mem`, the
head of the relevant fast bin with its size word), `perturb_byte`, and
the `have_lock` argument. -/
structure FreeCtx where
  tcacheEnabled : Bool
  tcacheKeyVal : Nat
  entries : Nat → List Nat
  counts : Nat → Nat
  tcacheBins : Nat
  tcacheCount : Nat
  maxFast : Nat
  systemMem : Nat
  fastbinTop : Option (Nat × Nat)
  perturbByte : Nat
  haveLock : Bool

/-- The words `_int_free` reads about the chunk being released: its
address `p`, its raw size word, the `key` word of its payload (for the
tcache double-free prefilter), and the raw size word of the chunk at
`p + chunksize (p)`. -/
structure FreeChunk where
  addr : Nat
  sizeWord : Nat
  keyWord : Nat
  nextWord : Nat
  deriving DecidableEq

/-- The fatal-abort tags reachable from the modelled region. -/
inductive FreeAbort where
  | invalidPointer : FreeAbort
  | invalidSize : FreeAbort
  | doubleFreeTcache : FreeAbort
  | invalidNextSizeFast : FreeAbort
  | fasttop : FreeAbort
  | invalidFastbinEntry : FreeAbort
  deriving DecidableEq

/-- Where the released chunk went.  The `fill` field records the byte the
payload was overwritten with before the path returned (`none`: the path
performs no overwrite).  The tcache path returns at line 4465 without
calling `free_perturb`; the fast-bin path calls it at line 4509. -/
inductive FreeResult where
  | tcachePut (newCount : Nat) (fill : Option Nat) : FreeResult
  | fastbinPush (fill : Option Nat) : FreeResult
  | toConsolidate : FreeResult
  deriving DecidableEq

instance {α β : Type} [DecidableEq α] [DecidableEq β] : DecidableEq (Except α β) :=
  fun x y =>
    match x, y with
    | .error a, .error b =>
      if h : a = b then .isTrue (h ▸ rfl)
      else .isFalse (by intro he; injection he; contradiction)
    | .ok a, .ok b =>
      if h : a = b then .isTrue (h ▸ rfl)
      else .isFalse (by intro he; injection he; contradiction)
    | .error _, .ok _ => .isFalse (by intro he; exact Except.noConfusion he)
    | .ok _, .error _ => .isFalse (by intro he; exact Except.noConfusion he)

/-- The fast-bin branch of `_int_free` (lines 4476-4549), entered when
the tcache did not take the chunk: next-size sanity check, `free_perturb`,
double-free-of-head check, aligned-index check, push. -/
def intFreeFast (ctx : FreeCtx) (c : FreeChunk) (size : Nat) :
    Except FreeAbort FreeResult :=
  if size ≤ ctx.maxFast then
    if chunksize_nomaskW c.nextWord ≤ 2 * SIZE_SZ ∨
        ctx.systemMem ≤ chunksizeW c.nextWord then
      .error .invalidNextSizeFast
    else
      let fill := free_perturbFill ctx.perturbByte
      let idx := fastbin_index size
      match ctx.fastbinTop with
      | some (oldAddr, oldWord) =>
        if oldAddr = c.addr then .error .fasttop
        else if ctx.haveLock = true ∧ fastbin_index (chunksizeW oldWord) ≠ idx then
          .error .invalidFastbinEntry
        else .ok (.fastbinPush fill)
      | none => .ok (.fastbinPush fill)
  else .ok .toConsolidate

/-- `_int_free (av, p, have_lock)` down to the point where the chunk has
been placed (tcache or fast bin) or handed to the consolidation code:
the two entry security checks (lines 4424-4431), the tcache double-free
scan and guarded put (lines 4435-4468), then the fast-bin branch. -/
def intFree (ctx : FreeCtx) (c : FreeChunk) : Except FreeAbort FreeResult :=
  let size := chunksizeW c.sizeWord
  if (U64 - size) % U64 < c.addr ∨ c.addr % MALLOC_ALIGNMENT ≠ 0 then
    .error .invalidPointer
  else if size < MINSIZE ∨ size % MALLOC_ALIGNMENT ≠ 0 then
    .error .invalidSize
  else
    let tc_idx := csize2tidx size
    if ctx.tcacheEnabled = true ∧ tc_idx < ctx.tcacheBins then
      if c.keyWord = ctx.tcacheKeyVal ∧ (c.addr + 2 * SIZE_SZ) ∈ ctx.entries tc_idx then
        .error .doubleFreeTcache
      else if ctx.counts tc_idx < ctx.tcacheCount then
        .ok (.tcachePut (ctx.counts tc_idx + 1) none)
      else intFreeFast ctx c size
    else intFreeFast ctx c size

/-- A concrete default context: tcache absent, `get_max_fast ()` at its
default `DEFAULT_MXFAST = 128`, one freshly grown arena
(`system_mem = 132 KiB`), empty fast bin, perturbation off, no lock. -/
def freeCtx0 : FreeCtx :=
  { tcacheEnabled := false
    tcacheKeyVal := 0
    entries := fun _ => []
    counts := fun _ => 0
    tcacheBins := 64
    tcacheCount := 7
    maxFast := 128
    systemMem := 135168
    fastbinTop := none
    perturbByte := 0
    haveLock := false }

/-! ## The unsorted-bin drain of `_int_malloc` (malloc.c lines 3885-4112)

The drain walks the unsorted bin from the tail for at most `MAX_ITERS`
iterations.  The model carries, per visited chunk, exactly the words the
checks read; the two pointer-identity checks (`bck->fd == victim`,
`victim->fd == unsorted_chunks (av)`), which need the heap graph, are
carried as the boolean field `linksOk` (when it fails the drain aborts at
the first of the two equivalent tests).  Binning a non-fitting chunk into
its small or large bin (lines 4014-4087) mutates only bin structures the
drain never re-reads, so it is not tracked; the model presumes the bin
rings being inserted into are well formed (their corruption aborts are
outside the modelled claims). -/

/-- `MAX_ITERS`, the unsorted-scan iteration limit (line 4101). -/
def MAX_ITERS : Nat := 10000

/-- The words the drain reads about one unsorted chunk: `chunksize
(victim)`, the raw size word of the chunk at `victim + size`, the
`prev_size` field of that successor, the two link-back identities, and
whether `victim == av->last_remainder`. -/
structure UChunk where
  size : Nat
  nextWord : Nat
  nextPrevSize : Nat
  linksOk : Bool
  isLastRemainder : Bool
  deriving DecidableEq

/-- The parameters the drain consults: the padded request `nb`,
`av->system_mem`, the tcache (`tcache != NULL`, `mp_.tcache_bins`,
`mp_.tcache_count`, `mp_.tcache_unsorted_limit`), and `perturb_byte`. -/
structure DrainCtx where
  nb : Nat
  sysMem : Nat
  tcacheEnabled : Bool
  tcacheBins : Nat
  tcacheCount : Nat
  tcacheUnsortedLimit : Nat
  perturb : Nat

/-- The abort tags of the drain's integrity checks (lines 3916-3928). -/
inductive DrainAbort where
  | invalidSizeUnsorted : DrainAbort
  | invalidNextSizeUnsorted : DrainAbort
  | mismatchingNextPrevSize : DrainAbort
  | unsortedCorrupted : DrainAbort
  | invalidNextPrevInuse : DrainAbort
  deriving DecidableEq

/-- How a run that returns a tcache-cached chunk got to its
`tcache_get`: the post-loop return at line 4110 after the bin emptied,
the same return after the `MAX_ITERS` break, or the in-loop cap check at
line 4097. -/
inductive DrainExit where
  | binExhausted : DrainExit
  | itersLimit : DrainExit
  | capExceeded : DrainExit
  deriving DecidableEq

/-- Result of the drain.  `fill` is the byte the returned payload was
overwritten with: the direct returns run `alloc_perturb` (lines 3971,
4007), the `tcache_get` returns at lines 4097 and 4110 do not. -/
inductive DrainOutcome where
  | abort (t : DrainAbort) : DrainOutcome
  | splitReturn (fill : Option Nat) : DrainOutcome
  | exactReturn (fill : Option Nat) : DrainOutcome
  | cachedReturn (why : DrainExit) (fill : Option Nat) : DrainOutcome
  | noFit : DrainOutcome
  deriving DecidableEq

/-- `tcache_nb != 0` (lines 3886-3889): the request has a tcache bucket. -/
def tcacheAvailable (ctx : DrainCtx) : Prop :=
  ctx.tcacheEnabled = true ∧ csize2tidx ctx.nb < ctx.tcacheBins

instance (ctx : DrainCtx) : Decidable (tcacheAvailable ctx) := by
  unfold tcacheAvailable; infer_instance

/-- The integrity checks of lines 3916-3928 all pass, phrased as the
negations of the abort conditions. -/
def drainChecksOk (ctx : DrainCtx) (v : UChunk) : Prop :=
  ¬ (v.size ≤ 2 * SIZE_SZ ∨ ctx.sysMem < v.size) ∧
  ¬ (chunksize_nomaskW v.nextWord < 2 * SIZE_SZ ∨
      ctx.sysMem < chunksize_nomaskW v.nextWord) ∧
  ¬ (v.nextPrevSize - v.nextPrevSize % 8 ≠ v.size) ∧
  ¬ (v.linksOk = false) ∧
  ¬ (v.nextWord % 2 = 1)

instance (ctx : DrainCtx) (v : UChunk) : Decidable (drainChecksOk ctx v) := by
  unfold drainChecksOk; infer_instance

/-- The drain loop over the unsorted bin, tail first.  State: the tcache
bucket count for the request's class, `return_cached`, `iters`, and
`tcache_unsorted_count`.  The exact-fit `continue` (line 3998) skips the
`tcache_unsorted_count` and `iters` increments, exactly as in the
source. -/
def drainLoop (ctx : DrainCtx) (tcCount : Nat) (returnCached : Bool)
    (iters : Nat) (ucount : Nat) : List UChunk → DrainOutcome
  | [] => if returnCached then .cachedReturn .binExhausted none else .noFit
  | v :: rest =>
    if v.size ≤ 2 * SIZE_SZ ∨ ctx.sysMem < v.size then
      .abort .invalidSizeUnsorted
    else if chunksize_nomaskW v.nextWord < 2 * SIZE_SZ ∨
        ctx.sysMem < chunksize_nomaskW v.nextWord then
      .abort .invalidNextSizeUnsorted
    else if v.nextPrevSize - v.nextPrevSize % 8 ≠ v.size then
      .abort .mismatchingNextPrevSize
    else if v.linksOk = false then
      .abort .unsortedCorrupted
    else if v.nextWord % 2 = 1 then
      .abort .invalidNextPrevInuse
    else if in_smallbin_range ctx.nb ∧ rest = [] ∧
        v.isLastRemainder = true ∧ ctx.nb + MINSIZE < v.size then
      .splitReturn (alloc_perturbFill ctx.perturb)
    else if v.size = ctx.nb then
      if tcacheAvailable ctx ∧ tcCount < ctx.tcacheCount then
        drainLoop ctx (tcCount + 1) true iters ucount rest
      else .exactReturn (alloc_perturbFill ctx.perturb)
    else
      if returnCached = true ∧ 0 < ctx.tcacheUnsortedLimit ∧
          ctx.tcacheUnsortedLimit < ucount + 1 then
        .cachedReturn .capExceeded none
      else if MAX_ITERS ≤ iters + 1 then
        if returnCached then .cachedReturn .itersLimit none else .noFit
      else drainLoop ctx tcCount returnCached (iters + 1) (ucount + 1) rest

/-- What the claim allows as the moment a cached chunk is returned:
only the iteration limit or the cap. -/
def claimC5Exit (why : DrainExit) : Prop :=
  why = .itersLimit ∨ why = .capExceeded

instance (why : DrainExit) : Decidable (claimC5Exit why) := by
  unfold claimC5Exit; infer_instance

/-- A drain context with the defaults except a positive unsorted cap. -/
def drainCtx5 : DrainCtx :=
  { nb := 32, sysMem := 135168, tcacheEnabled := true, tcacheBins := 64,
    tcacheCount := 7, tcacheUnsortedLimit := 5, perturb := 0 }

/-- The same context with the default `mp_.tcache_unsorted_limit = 0`
("no limit", line 1883). -/
def drainCtx0 : DrainCtx :=
  { drainCtx5 with tcacheUnsortedLimit := 0 }

/-! ## The tcache consultation of `__libc_malloc` (lines 3170-3191) -/

/-- Outcome of `__libc_malloc` up to the point where an arena is chosen:
the `ENOMEM` early return, a tcache hit (`return tcache_get (tc_idx)` at
line 3189 — no `alloc_perturb` runs between the pop and the return, so
the payload is handed back unfilled), or the fall-through to
`_int_malloc` with the padded size. -/
inductive MallocGateResult where
  | enomemNull : MallocGateResult
  | tcacheHit (newCount : Nat) (fill : Option Nat) : MallocGateResult
  | toArena (tbytes : Nat) : MallocGateResult
  deriving DecidableEq

/-- `__libc_malloc (bytes)` down to the arena dispatch:
`checked_request2size`, then `tc_idx < mp_.tcache_bins && tcache != NULL
&& tcache->counts[tc_idx] > 0` selects the tcache hit. -/
def libcMallocGate (ctx : FreeCtx) (bytes : Nat) : MallocGateResult :=
  match checked_request2size bytes with
  | none => .enomemNull
  | some tbytes =>
    if csize2tidx tbytes < ctx.tcacheBins ∧ ctx.tcacheEnabled = true ∧
        0 < ctx.counts (csize2tidx tbytes) then
      .tcacheHit (ctx.counts (csize2tidx tbytes) - 1) none
    else .toArena tbytes

/-- A context with the tcache live, every bucket holding three chunks,
and the perturb byte configured to 65 (`0x41`). -/
def perturbCtx : FreeCtx :=
  { freeCtx0 with tcacheEnabled := true, counts := fun _ => 3, perturbByte := 65 }

/-- What fill the release and allocation paths must produce according to
the claim, when the perturb byte is non-zero: `some value` on release,
`some (value ^ 0xff)` on allocation. -/
def drainFillOk (ctx : DrainCtx) (o : DrainOutcome) : Prop :=
  (∀ fill : Option Nat, o = .exactReturn fill → fill = alloc_perturbFill ctx.perturb) ∧
  (∀ (why : DrainExit) (fill : Option Nat), o = .cachedReturn why fill → fill = none)

/-! ## The last-remainder fast path (malloc.c lines 3938-3973) -/

/-- What the last-remainder branch reads: the padded request `nb`, the
tail chunk's address and size, whether `bck == unsorted_chunks (av)`
(the tail is the only unsorted chunk), whether
`victim == av->last_remainder`, and whether `av == &main_arena`. -/
structure LastRemInput where
  nb : Nat
  victimAddr : Nat
  size : Nat
  binSole : Bool
  isLastRemainder : Bool
  mainArena : Bool
  deriving DecidableEq

/-- The writes the split performs: the returned user pointer
(`chunk2mem (victim)`), the victim's new size word
(`set_head (victim, nb | PREV_INUSE | ...)`), the remainder chunk's
address, size word (`set_head (remainder, remainder_size | PREV_INUSE)`)
and boundary tag (`set_foot (remainder, remainder_size)`), the updated
`av->last_remainder`, and the single chunk both `fd` and `bk` of the
unsorted-bin head now point at. -/
structure SplitResult where
  retPtr : Nat
  victimHead : Nat
  remainderAddr : Nat
  remainderHead : Nat
  remainderFoot : Nat
  newLastRemainder : Nat
  unsortedSoleEntry : Nat
  deriving DecidableEq

/-- The last-remainder branch: taken exactly under the four conditions of
line 3938-3941 (note the strict `size > nb + MINSIZE`); `none` means the
branch is skipped and the drain continues. -/
def lastRemainderPath (s : LastRemInput) : Option SplitResult :=
  if in_smallbin_range s.nb ∧ s.binSole = true ∧ s.isLastRemainder = true ∧
      s.nb + MINSIZE < s.size then
    some { retPtr := s.victimAddr + 2 * SIZE_SZ
           victimHead := s.nb ||| PREV_INUSE |||
             (if s.mainArena then 0 else NON_MAIN_ARENA)
           remainderAddr := s.victimAddr + s.nb
           remainderHead := (s.size - s.nb) ||| PREV_INUSE
           remainderFoot := s.size - s.nb
           newLastRemainder := s.victimAddr + s.nb
           unsortedSoleEntry := s.victimAddr + s.nb }
  else none

/-! ## `__libc_realloc` on a page-mapped chunk
(malloc.c lines 2971-3014 and 3288-3358)

`ALIGN_UP (x, al) = (x + al - 1) & ~(al - 1)` for a power-of-two `al`;
arithmetically, round `x` up to a multiple of `al`.  The modelled build
has `HAVE_MREMAP` and `REALLOC_ZERO_BYTES_FREES`. -/

/-- `ALIGN_UP`, as arithmetic on `Nat`. -/
def ALIGN_UP (x al : Nat) : Nat := (x + al - 1) - (x + al - 1) % al

/-- `powerof2 (x) = ((x & (x - 1)) == 0)`. -/
def powerof2 (x : Nat) : Prop := x &&& (x - 1) = 0

instance (x : Nat) : Decidable (powerof2 x) := by unfold powerof2; infer_instance

/-- The words `mremap_chunk` reads about a mapped chunk: its address, the
stored map offset (`prev_size (p)`) and its raw size word. -/
structure MmapChunk where
  addr : Nat
  prevSize : Nat
  sizeWord : Nat
  deriving DecidableEq

/-- The process-wide mmap counters (`mp_.n_mmaps`, `mp_.mmapped_mem`,
`mp_.max_mmapped_mem`). -/
structure MmapCounters where
  nMmaps : Nat
  mmappedMem : Nat
  maxMmappedMem : Nat
  deriving DecidableEq

/-- How far `mremap_chunk (p, new_size)` gets before it would call
`__mremap`: the pointer-validity abort (line 2984-2986), the
no-page-change early return of `p` (lines 2991-2993), or the actual
remap. -/
inductive MremapGate where
  | abortInvalid : MremapGate
  | unchanged : MremapGate
  | needRemap : MremapGate
  deriving DecidableEq

/-- The decision head of `mremap_chunk`: `block = p - offset`,
`total_size = offset + size` must be page-aligned and
`chunk2mem (p) & (pagesize - 1)` a power of two; then
`new_size = ALIGN_UP (new_size + offset + SIZE_SZ, pagesize)`, and
`total_size == new_size` returns `p` without touching anything. -/
def mremapGate (p : MmapChunk) (new_size pagesize : Nat) : MremapGate :=
  let offset := p.prevSize
  let size := chunksizeW p.sizeWord
  let block := p.addr - offset
  let total_size := offset + size
  if ¬ (block % pagesize = 0) ∨ ¬ (total_size % pagesize = 0) ∨
      ¬ powerof2 ((p.addr + 2 * SIZE_SZ) % pagesize) then .abortInvalid
  else if total_size = ALIGN_UP (new_size + offset + SIZE_SZ) pagesize then
    .unchanged
  else .needRemap

/-- Result of `__libc_realloc (oldmem, bytes)` along the branches the
claim touches.  `inPlace mem c ctr` is the return of
`chunk2mem (mremap_chunk (oldp, nb))` when the page count did not change:
the same user pointer, with the chunk words and the mmap counters handed
back exactly as they were read.  `otherPath` covers the branches the
claim is not about (dumped chunks, a real remap or copy, non-mmapped
chunks). -/
inductive ReallocMmapResult where
  | freedNull : ReallocMmapResult
  | mallocPath : ReallocMmapResult
  | abortReallocInvalidPointer : ReallocMmapResult
  | abortMremapInvalidPointer : ReallocMmapResult
  | enomemNull : ReallocMmapResult
  | inPlace (mem : Nat) (c : MmapChunk) (ctr : MmapCounters) : ReallocMmapResult
  | otherPath : ReallocMmapResult
  deriving DecidableEq

/-- `__libc_realloc` (lines 3288-3358), for a chunk described by `c`:
the `REALLOC_ZERO_BYTES_FREES` free, the null-pointer malloc, the
invalid-pointer abort, `checked_request2size` with its `ENOMEM` return,
then — for a non-dumped mmapped chunk — the `mremap_chunk` dispatch. -/
def libcReallocMmapped (bytes : Nat) (oldmemNull : Bool) (c : MmapChunk)
    (dumped : Bool) (ctr : MmapCounters) (pagesize : Nat) : ReallocMmapResult :=
  if bytes = 0 ∧ oldmemNull = false then .freedNull
  else if oldmemNull = true then .mallocPath
  else if ((U64 - chunksizeW c.sizeWord) % U64 < c.addr ∨
      c.addr % MALLOC_ALIGNMENT ≠ 0) ∧ dumped = false then
    .abortReallocInvalidPointer
  else if PTRDIFF_MAX < bytes then .enomemNull
  else if chunkIsMmappedW c.sizeWord then
    if dumped = true then .otherPath
    else
      match mremapGate c (request2size bytes) pagesize with
      | .abortInvalid => .abortMremapInvalidPointer
      | .unchanged => .inPlace (c.addr + 2 * SIZE_SZ) c ctr
      | .needRemap => .otherPath
  else .otherPath

/-- The claim, as stated: whenever the page-aligned value of the padded
request plus the stored map offset plus one word equals the chunk's
current total mapped size, `Reallocate (p, n)` on a page-mapped chunk
returns `p` itself with header, mapping and counters unchanged. -/
def claimC10 (bytes : Nat) (c : MmapChunk) (ctr : MmapCounters)
    (pagesize : Nat) : Prop :=
  ALIGN_UP (request2size bytes + c.prevSize + SIZE_SZ) pagesize =
      c.prevSize + chunksizeW c.sizeWord →
    libcReallocMmapped bytes false c false ctr pagesize =
      .inPlace (c.addr + 2 * SIZE_SZ) c ctr

instance (bytes : Nat) (c : MmapChunk) (ctr : MmapCounters) (pagesize : Nat) :
    Decidable (claimC10 bytes c ctr pagesize) := by
  unfold claimC10; infer_instance

/-! ## Theorems -/

/-- C1, counterexample.  The claim says the conversion fails exactly when
the padded request would exceed the signed pointer-difference ceiling, and
that every request above half the pointer-difference maximum is refused
with `ENOMEM`.  Both parts fail on the code: at request `PTRDIFF_MAX` the
padded size `2^63 + 16` exceeds the ceiling yet `checked_request2size`
succeeds, and at request `2^62` (greater than half of `PTRDIFF_MAX`) the
size gate of `__libc_malloc` proceeds instead of returning null. -/
theorem C1_conversion_counterexample :
    (specPaddedExceedsCeiling PTRDIFF_MAX ∧
      checked_request2size PTRDIFF_MAX = some (2 ^ 63 + 16)) ∧
    (PTRDIFF_MAX / 2 < 2 ^ 62 ∧
      libcMallocSizeGate (2 ^ 62) = .proceed (2 ^ 62 + 16)) := by
  decide

/-- C1, amended.  For every request strictly greater than `PTRDIFF_MAX`,
`__libc_malloc` sets `ENOMEM` and returns null before any allocation
work; and `checked_request2size` fails exactly when the raw (unpadded)
request exceeds `PTRDIFF_MAX`. -/
theorem C1_overflow_gate (n : Nat) (h : PTRDIFF_MAX < n) :
    libcMallocSizeGate n = .enomemNull ∧
    (∀ m : Nat, checked_request2size m = none ↔ PTRDIFF_MAX < m) := by
  refine ⟨?_, ?_⟩
  · unfold libcMallocSizeGate checked_request2size
    simp only [gt_iff_lt, h, if_true]
  · intro m
    unfold checked_request2size
    split_ifs with hm
    · simpa using hm
    · simpa using hm

/-- C1, witness for the amended theorem at the concrete request `2^63`. -/
theorem C1_overflow_gate_witness :
    libcMallocSizeGate (2 ^ 63) = .enomemNull ∧
    (∀ m : Nat, checked_request2size m = none ↔ PTRDIFF_MAX < m) :=
  C1_overflow_gate (2 ^ 63) (by decide)

/-- C6: for every chunk size in large-bin range, `largebin_index_64` maps
the size piecewise exactly as claimed — granularity 64 up to `size/64 ≤ 48`
(bin `48 + size/64`), then granularity 512 (`size/512 ≤ 20`, bin
`91 + size/512`), then 4096 (`size/4096 ≤ 10`, bin `110 + size/4096`),
then 32768 (`size/32768 ≤ 4`, bin `119 + size/32768`), then 262144
(`size/262144 ≤ 2`, bin `124 + size/262144`), and bin 126 for the rest. -/
theorem C6_largebin_index_64_piecewise (sz : Nat) (h : MIN_LARGE_SIZE ≤ sz) :
    (sz / 64 ≤ 48 → largebin_index_64 sz = 48 + sz / 64) ∧
    (48 < sz / 64 → sz / 512 ≤ 20 → largebin_index_64 sz = 91 + sz / 512) ∧
    (20 < sz / 512 → sz / 4096 ≤ 10 → largebin_index_64 sz = 110 + sz / 4096) ∧
    (10 < sz / 4096 → sz / 32768 ≤ 4 → largebin_index_64 sz = 119 + sz / 32768) ∧
    (4 < sz / 32768 → sz / 262144 ≤ 2 → largebin_index_64 sz = 124 + sz / 262144) ∧
    (2 < sz / 262144 → largebin_index_64 sz = 126) := by
  have e6 : sz >>> 6 = sz / 64 := by rw [Nat.shiftRight_eq_div_pow]
  have e9 : sz >>> 9 = sz / 512 := by rw [Nat.shiftRight_eq_div_pow]
  have e12 : sz >>> 12 = sz / 4096 := by rw [Nat.shiftRight_eq_div_pow]
  have e15 : sz >>> 15 = sz / 32768 := by rw [Nat.shiftRight_eq_div_pow]
  have e18 : sz >>> 18 = sz / 262144 := by rw [Nat.shiftRight_eq_div_pow]
  unfold largebin_index_64
  rw [e6, e9, e12, e15, e18]
  refine ⟨?_, ?_, ?_, ?_, ?_, ?_⟩ <;> intros <;> split_ifs <;> omega

/-- C6, witness at the concrete large-bin size 2048. -/
theorem C6_largebin_index_64_witness :
    (2048 / 64 ≤ 48 → largebin_index_64 2048 = 48 + 2048 / 64) ∧
    (48 < 2048 / 64 → 2048 / 512 ≤ 20 → largebin_index_64 2048 = 91 + 2048 / 512) ∧
    (20 < 2048 / 512 → 2048 / 4096 ≤ 10 → largebin_index_64 2048 = 110 + 2048 / 4096) ∧
    (10 < 2048 / 4096 → 2048 / 32768 ≤ 4 → largebin_index_64 2048 = 119 + 2048 / 32768) ∧
    (4 < 2048 / 32768 → 2048 / 262144 ≤ 2 → largebin_index_64 2048 = 124 + 2048 / 262144) ∧
    (2 < 2048 / 262144 → largebin_index_64 2048 = 126) :=
  C6_largebin_index_64_piecewise 2048 (by decide)

/-- C7, counterexample.  A page-mapped, non-dumped chunk whose size word
is `4096 | IS_MMAPPED`: the claim says `UsableSize` is the capacity minus
a single header word (`4096 - 8`), but `musable` returns `4096 - 16`. -/
theorem C7_musable_counterexample :
    chunkIsMmappedW 4098 ∧ (UsableChunk.mk 4098 false false).dumped = false ∧
    musable (some (UsableChunk.mk 4098 false false)) ≠ chunksizeW 4098 - SIZE_SZ ∧
    musable (some (UsableChunk.mk 4098 false false)) = 4080 := by
  decide

/-- C7, amended.  For every pointer whose chunk is page-mapped and not a
dumped-arena chunk, `musable` returns the chunk's capacity minus two
header words (`2 * SIZE_SZ`); the single-word rule holds only for dumped
chunks and for ordinary in-use arena chunks. -/
theorem C7_musable_mmapped (p : UsableChunk)
    (hM : chunkIsMmappedW p.sizeWord) (hD : p.dumped = false) :
    musable (some p) = chunksizeW p.sizeWord - 2 * SIZE_SZ := by
  simp only [musable]
  rw [if_pos hM, hD]
  simp

/-- C7, witness for the amended theorem at the size word `4096 | M`. -/
theorem C7_musable_mmapped_witness :
    musable (some (UsableChunk.mk 4098 false false)) =
      chunksizeW 4098 - 2 * SIZE_SZ :=
  C7_musable_mmapped (UsableChunk.mk 4098 false false) (by decide) rfl

theorem stashCount_le (cap c avail : Nat) (h : c ≤ cap) :
    stashCount cap c avail ≤ cap := by
  induction avail generalizing c with
  | zero => simpa [stashCount] using h
  | succ a ih =>
    unfold stashCount
    split_ifs with hc
    · exact ih (c + 1) hc
    · exact h

theorem tcacheStep_bound (cap : Nat) (s : TcacheCounts) (op : TcacheOp)
    (h : ∀ i, s.counts i ≤ cap) : ∀ i, (tcacheStep cap s op).counts i ≤ cap := by
  intro i
  cases op with
  | freePut k =>
    simp only [tcacheStep]
    split_ifs with hk
    · show (if i = k then s.counts k + 1 else s.counts i) ≤ cap
      by_cases hik : i = k
      · rw [if_pos hik]; omega
      · rw [if_neg hik]; exact h i
    · exact h i
  | getFrom k =>
    simp only [tcacheStep]
    split_ifs with hk
    · show (if i = k then s.counts k - 1 else s.counts i) ≤ cap
      by_cases hik : i = k
      · rw [if_pos hik]; have := h k; omega
      · rw [if_neg hik]; exact h i
    · exact h i
  | stashInto k avail =>
    show (if i = k then stashCount cap (s.counts k) avail else s.counts i) ≤ cap
    by_cases hik : i = k
    · rw [if_pos hik]; exact stashCount_le cap _ avail (h k)
    · rw [if_neg hik]; exact h i
  | unsortedPut k =>
    simp only [tcacheStep]
    split_ifs with hk
    · show (if i = k then s.counts k + 1 else s.counts i) ≤ cap
      by_cases hik : i = k
      · rw [if_pos hik]; omega
      · rw [if_neg hik]; exact h i
    · exact h i

/-- C8: starting from the zeroed counters of `tcache_init`, after any
sequence of the count mutations the source performs, every tcache bucket
holds at most the configured per-class cap — whose default,
`mp_.tcache_count = TCACHE_FILL_COUNT`, is 7.  Every push is guarded by
its bucket count being below the cap, so the bound is preserved. -/
theorem C8_tcache_bound (cap : Nat) (ops : List TcacheOp) (i : Nat) :
    (tcacheRun cap tcacheInit ops).counts i ≤ cap ∧ defaultTcacheCount = 7 := by
  refine ⟨?_, rfl⟩
  have main : ∀ (ops : List TcacheOp) (s : TcacheCounts),
      (∀ j, s.counts j ≤ cap) → ∀ j, (tcacheRun cap s ops).counts j ≤ cap := by
    intro ops
    induction ops with
    | nil => intro s hs j; simpa [tcacheRun] using hs j
    | cons op rest ih =>
      intro s hs j
      unfold tcacheRun
      exact ih (tcacheStep cap s op) (tcacheStep_bound cap s op hs) j
  exact main ops tcacheInit (fun _ => Nat.zero_le cap) i

/-- C9, counterexample.  A chunk at the aligned address 4096 whose size
word is 0: its size is below the minimum and adding it to the address
does not pass the end of the address space, so the claim predicts the
`free(): invalid size` abort — but the code aborts with
`free(): invalid pointer`, because `(uintptr_t) p > (uintptr_t) -size`
compares against the unsigned negation of the size, which is 0 when the
size is 0. -/
theorem C9_free_entry_counterexample :
    chunksizeW 0 < MINSIZE ∧
    (4096 : Nat) + chunksizeW 0 ≤ U64 ∧
    (4096 : Nat) % MALLOC_ALIGNMENT = 0 ∧
    intFree freeCtx0 (FreeChunk.mk 4096 0 0 0) = .error .invalidPointer ∧
    FreeAbort.invalidPointer ≠ FreeAbort.invalidSize := by
  decide

/-- C9, amended.  For every non-null, non-mmapped pointer handed to
`_int_free`: if the chunk address exceeds the unsigned negation of its
size (for a nonzero size that is exactly "the address wraps past the end
of the address space when the size is added"; for size zero it holds for
every nonzero address) or the chunk is misaligned, the release aborts
with `free(): invalid pointer` before any tcache, fast-bin, or bin
mutation; otherwise, if the size is below the minimum chunk size or not
a multiple of the alignment quantum, it aborts with
`free(): invalid size`.  Both aborts are modelled as bare error values:
no state is produced. -/
theorem C9_free_entry_checks (ctx : FreeCtx) (c : FreeChunk)
    (hw : c.sizeWord < U64) :
    (((U64 - chunksizeW c.sizeWord) % U64 < c.addr ∨
        c.addr % MALLOC_ALIGNMENT ≠ 0) →
      intFree ctx c = .error .invalidPointer) ∧
    (¬ ((U64 - chunksizeW c.sizeWord) % U64 < c.addr ∨
        c.addr % MALLOC_ALIGNMENT ≠ 0) →
      (chunksizeW c.sizeWord < MINSIZE ∨
        chunksizeW c.sizeWord % MALLOC_ALIGNMENT ≠ 0) →
      intFree ctx c = .error .invalidSize) ∧
    (0 < chunksizeW c.sizeWord →
      ((U64 - chunksizeW c.sizeWord) % U64 < c.addr ↔
        U64 < c.addr + chunksizeW c.sizeWord)) := by
  refine ⟨?_, ?_, ?_⟩
  · intro h1
    simp only [intFree]
    rw [if_pos h1]
  · intro h1 h2
    simp only [intFree]
    rw [if_neg h1, if_pos h2]
  · intro hpos
    have hU : U64 = 18446744073709551616 := by norm_num [U64]
    unfold chunksizeW at hpos ⊢
    rw [hU] at hw
    rw [hU]
    omega

/-- C9, witness: the amended theorem applied to a misaligned pointer. -/
theorem C9_free_entry_checks_witness :
    intFree freeCtx0 (FreeChunk.mk 4100 48 0 48) = .error .invalidPointer :=
  (C9_free_entry_checks freeCtx0 (FreeChunk.mk 4100 48 0 48) (by decide)).1
    (by decide)

/-- C3, counterexample.  A fast-bin-eligible chunk whose successor's size
word is exactly `2 * SIZE_SZ = 16`: that size lies in the closed interval
`[2 * SIZE_SZ, system_mem]`, so the claim predicts the push proceeds —
but line 4488 aborts on `nextsize <= 2 * SIZE_SZ`, tag
`free(): invalid next size (fast)`. -/
theorem C3_fastbin_counterexample :
    2 * SIZE_SZ ≤ chunksize_nomaskW 16 ∧
    chunksizeW 16 ≤ freeCtx0.systemMem ∧
    chunksizeW 48 ≤ freeCtx0.maxFast ∧
    intFree freeCtx0 (FreeChunk.mk 1048576 48 0 16) =
      .error .invalidNextSizeFast := by
  decide

/-- C3, amended.  For a chunk passing the entry checks, released into a
fast bin (size at most `get_max_fast ()`, tcache not consuming it): the
release survives the next-size check exactly when the successor's raw
size word is strictly greater than `2 * SIZE_SZ` and its masked size is
strictly below the arena's `system_mem` (an open interval, tested on the
unmasked word below and the masked size above); inside that region,
pushing a chunk equal to the current fast-bin head aborts with
`double free or corruption (fasttop)`, and with an empty fast bin the
push succeeds carrying the `free_perturb` fill. -/
theorem C3_fastbin_free (ctx : FreeCtx) (c : FreeChunk)
    (h1 : ¬ ((U64 - chunksizeW c.sizeWord) % U64 < c.addr ∨
        c.addr % MALLOC_ALIGNMENT ≠ 0))
    (h2 : ¬ (chunksizeW c.sizeWord < MINSIZE ∨
        chunksizeW c.sizeWord % MALLOC_ALIGNMENT ≠ 0))
    (htc : ctx.tcacheEnabled = false)
    (hfast : chunksizeW c.sizeWord ≤ ctx.maxFast) :
    (intFree ctx c = .error .invalidNextSizeFast ↔
      (chunksize_nomaskW c.nextWord ≤ 2 * SIZE_SZ ∨
        ctx.systemMem ≤ chunksizeW c.nextWord)) ∧
    (2 * SIZE_SZ < chunksize_nomaskW c.nextWord →
      chunksizeW c.nextWord < ctx.systemMem →
      ∀ oldWord : Nat, ctx.fastbinTop = some (c.addr, oldWord) →
        intFree ctx c = .error .fasttop) ∧
    (2 * SIZE_SZ < chunksize_nomaskW c.nextWord →
      chunksizeW c.nextWord < ctx.systemMem →
      ctx.fastbinTop = none →
        intFree ctx c = .ok (.fastbinPush (free_perturbFill ctx.perturbByte))) := by
  have hred : intFree ctx c = intFreeFast ctx c (chunksizeW c.sizeWord) := by
    simp only [intFree]
    rw [if_neg h1, if_neg h2, if_neg]
    intro hcon
    rw [htc] at hcon
    exact Bool.false_ne_true hcon.1
  refine ⟨?_, ?_, ?_⟩
  · rw [hred]
    unfold intFreeFast
    rw [if_pos hfast]
    constructor
    · intro hres
      by_contra hout
      rw [if_neg hout] at hres
      revert hres
      cases hft : ctx.fastbinTop with
      | none => simp
      | some pair =>
        cases pair with
        | mk oldAddr oldWord =>
          simp only []
          split_ifs <;> simp
    · intro hout
      rw [if_pos hout]
  · intro hlo hhi oldWord hft
    rw [hred]
    unfold intFreeFast
    rw [if_pos hfast, if_neg (by omega), hft]
    simp
  · intro hlo hhi hft
    rw [hred]
    unfold intFreeFast
    rw [if_pos hfast, if_neg (by omega), hft]

/-- C3, witness: a successful fast-bin push one byte inside the open
interval, a `fasttop` abort, and the boundary abort, all at size word 48
with successor word 17. -/
theorem C3_fastbin_free_witness :
    intFree freeCtx0 (FreeChunk.mk 1048576 48 0 17) =
      .ok (.fastbinPush (free_perturbFill freeCtx0.perturbByte)) :=
  (C3_fastbin_free freeCtx0 (FreeChunk.mk 1048576 48 0 17)
      (by decide) (by decide) rfl (by decide)).2.2 (by decide) (by decide) rfl

/-- C5, counterexample.  An unsorted bin holding exactly one well-formed
chunk of the requested size, tcache bucket empty, cap 5: the chunk is
cached and then returned because the bin is exhausted after a single
iteration — neither the 10000-iteration limit was reached nor did the
processed count exceed the cap, contradicting the claim's "only
after". -/
theorem C5_cached_return_counterexample :
    drainLoop drainCtx5 0 false 0 0 [UChunk.mk 32 32 32 true false] =
      .cachedReturn .binExhausted none ∧
    ¬ claimC5Exit .binExhausted := by
  decide

/-- C5, amended.  (1) When the drain meets a chunk of exactly the
requested size and the matching tcache bucket is below the cap, the chunk
is cached and the drain continues instead of returning (the claim's first
half, confirmed).  (2) A first cached chunk is returned when the drain
loop ends with the bin exhausted — additionally to the iteration-limit
and cap exits.  (3) The cap exit never fires when the configured
`tcache_unsorted_limit` is zero (its default, meaning "no limit"). -/
theorem C5_unsorted_tcache :
    (∀ (ctx : DrainCtx) (v : UChunk) (rest : List UChunk)
        (tcCount : Nat) (rc : Bool) (iters ucount : Nat),
      drainChecksOk ctx v → v.isLastRemainder = false → v.size = ctx.nb →
      tcacheAvailable ctx → tcCount < ctx.tcacheCount →
      drainLoop ctx tcCount rc iters ucount (v :: rest) =
        drainLoop ctx (tcCount + 1) true iters ucount rest) ∧
    (∀ (ctx : DrainCtx) (tcCount iters ucount : Nat),
      drainLoop ctx tcCount true iters ucount [] =
        .cachedReturn .binExhausted none) ∧
    (∀ (ctx : DrainCtx) (tcCount : Nat) (rc : Bool) (iters ucount : Nat)
        (chunks : List UChunk) (fill : Option Nat),
      ctx.tcacheUnsortedLimit = 0 →
      drainLoop ctx tcCount rc iters ucount chunks ≠
        .cachedReturn .capExceeded fill) := by
  refine ⟨?_, ?_, ?_⟩
  · intro ctx v rest tcCount rc iters ucount hok hlr hsz htc hcnt
    obtain ⟨h1, h2, h3, h4, h5⟩ := hok
    simp only [drainLoop]
    rw [if_neg h1, if_neg h2, if_neg h3, if_neg h4, if_neg h5,
      if_neg (by simp [hlr]), if_pos hsz, if_pos ⟨htc, hcnt⟩]
  · intro ctx tcCount iters ucount
    simp [drainLoop]
  · intro ctx tcCount rc iters ucount chunks
    induction chunks generalizing tcCount rc iters ucount with
    | nil =>
      intro fill hlim
      simp only [drainLoop]
      by_cases hrc : rc <;> simp [hrc]
    | cons v rest ih =>
      intro fill hlim
      simp only [drainLoop]
      by_cases hc1 : v.size ≤ 2 * SIZE_SZ ∨ ctx.sysMem < v.size
      · rw [if_pos hc1]; simp
      rw [if_neg hc1]
      by_cases hc2 : chunksize_nomaskW v.nextWord < 2 * SIZE_SZ ∨
          ctx.sysMem < chunksize_nomaskW v.nextWord
      · rw [if_pos hc2]; simp
      rw [if_neg hc2]
      by_cases hc3 : v.nextPrevSize - v.nextPrevSize % 8 ≠ v.size
      · rw [if_pos hc3]; simp
      rw [if_neg hc3]
      by_cases hc4 : v.linksOk = false
      · rw [if_pos hc4]; simp
      rw [if_neg hc4]
      by_cases hc5 : v.nextWord % 2 = 1
      · rw [if_pos hc5]; simp
      rw [if_neg hc5]
      by_cases hc6 : in_smallbin_range ctx.nb ∧ rest = [] ∧
          v.isLastRemainder = true ∧ ctx.nb + MINSIZE < v.size
      · rw [if_pos hc6]; simp
      rw [if_neg hc6]
      by_cases hc7 : v.size = ctx.nb
      · rw [if_pos hc7]
        by_cases hc8 : tcacheAvailable ctx ∧ tcCount < ctx.tcacheCount
        · rw [if_pos hc8]; exact ih _ _ _ _ fill hlim
        · rw [if_neg hc8]; simp
      rw [if_neg hc7]
      by_cases hc9 : rc = true ∧ 0 < ctx.tcacheUnsortedLimit ∧
          ctx.tcacheUnsortedLimit < ucount + 1
      · exact absurd hc9.2.1 (by rw [hlim]; exact lt_irrefl 0)
      rw [if_neg hc9]
      by_cases hc10 : MAX_ITERS ≤ iters + 1
      · rw [if_pos hc10]
        by_cases hrc : rc <;> simp [hrc]
      · rw [if_neg hc10]
        exact ih _ _ _ _ fill hlim

/-- C5, witness: the amended theorem instantiated — the exact-fit chunk
is cached and the drain continues; the exhausted bin returns the cached
chunk; and with the default zero cap the cap exit cannot be the
outcome. -/
theorem C5_unsorted_tcache_witness :
    drainLoop drainCtx5 0 false 0 0 [UChunk.mk 32 32 32 true false] =
      drainLoop drainCtx5 1 true 0 0 [] ∧
    drainLoop drainCtx5 1 true 0 0 [] = .cachedReturn .binExhausted none ∧
    drainLoop drainCtx0 0 false 0 0 [UChunk.mk 32 32 32 true false] ≠
      .cachedReturn .capExceeded none :=
  ⟨C5_unsorted_tcache.1 drainCtx5 (UChunk.mk 32 32 32 true false) [] 0 false 0 0
      (by decide) rfl rfl (by decide) (by decide),
    C5_unsorted_tcache.2.1 drainCtx5 1 0 0,
    C5_unsorted_tcache.2.2 drainCtx0 0 false 0 0
      [UChunk.mk 32 32 32 true false] none rfl⟩

/-- C2, counterexample.  With the perturb byte set to 65: a tcache hit in
`__libc_malloc` returns the chunk with its payload untouched (no
`alloc_perturb` fill of `65 ^ 0xff = 190`), and a release taken by
`tcache_put` in `_int_free` returns with the payload untouched (no
`free_perturb` fill of 65) — contradicting the claim's "every allocation
and release path, including the tcache hit and the tcache push". -/
theorem C2_perturb_counterexample :
    perturbCtx.perturbByte ≠ 0 ∧
    libcMallocGate perturbCtx 24 = .tcacheHit 2 none ∧
    intFree perturbCtx (FreeChunk.mk 1048576 48 77 33) =
      .ok (.tcachePut 4 none) ∧
    free_perturbFill perturbCtx.perturbByte = some 65 ∧
    alloc_perturbFill perturbCtx.perturbByte = some 190 := by
  decide

theorem intFreeFast_fastbinPush_fill (ctx : FreeCtx) (c : FreeChunk)
    (size : Nat) (fill : Option Nat)
    (h : intFreeFast ctx c size = .ok (.fastbinPush fill)) :
    fill = free_perturbFill ctx.perturbByte := by
  unfold intFreeFast at h
  by_cases h1 : size ≤ ctx.maxFast
  · rw [if_pos h1] at h
    by_cases h2 : chunksize_nomaskW c.nextWord ≤ 2 * SIZE_SZ ∨
        ctx.systemMem ≤ chunksizeW c.nextWord
    · rw [if_pos h2] at h
      exact absurd h (by simp)
    · rw [if_neg h2] at h
      revert h
      cases ctx.fastbinTop with
      | none =>
        intro h
        injection h with h
        injection h with h
        exact h.symm
      | some pair =>
        cases pair with
        | mk oldAddr oldWord =>
          intro h
          simp only [] at h
          by_cases h3 : oldAddr = c.addr
          · rw [if_pos h3] at h
            exact absurd h (by simp)
          · rw [if_neg h3] at h
            by_cases h4 : ctx.haveLock = true ∧
                fastbin_index (chunksizeW oldWord) ≠ fastbin_index size
            · rw [if_pos h4] at h
              exact absurd h (by simp)
            · rw [if_neg h4] at h
              injection h with h
              injection h with h
              exact h.symm
  · rw [if_neg h1] at h
    exact absurd h (by simp)

theorem intFreeFast_no_tcachePut (ctx : FreeCtx) (c : FreeChunk)
    (size : Nat) (n : Nat) (fill : Option Nat) :
    ¬ (intFreeFast ctx c size = .ok (.tcachePut n fill)) := by
  intro h
  unfold intFreeFast at h
  by_cases h1 : size ≤ ctx.maxFast
  · rw [if_pos h1] at h
    by_cases h2 : chunksize_nomaskW c.nextWord ≤ 2 * SIZE_SZ ∨
        ctx.systemMem ≤ chunksizeW c.nextWord
    · rw [if_pos h2] at h
      exact absurd h (by simp)
    · rw [if_neg h2] at h
      revert h
      cases ctx.fastbinTop with
      | none => intro h; exact absurd h (by simp)
      | some pair =>
        cases pair with
        | mk oldAddr oldWord =>
          intro h
          simp only [] at h
          by_cases h3 : oldAddr = c.addr
          · rw [if_pos h3] at h
            exact absurd h (by simp)
          · rw [if_neg h3] at h
            by_cases h4 : ctx.haveLock = true ∧
                fastbin_index (chunksizeW oldWord) ≠ fastbin_index size
            · rw [if_pos h4] at h
              exact absurd h (by simp)
            · rw [if_neg h4] at h
              exact absurd h (by simp)
  · rw [if_neg h1] at h
    exact absurd h (by simp)

theorem intFree_result_fill (ctx : FreeCtx) (c : FreeChunk) :
    (∀ fill : Option Nat, intFree ctx c = .ok (.fastbinPush fill) →
      fill = free_perturbFill ctx.perturbByte) ∧
    (∀ (n : Nat) (fill : Option Nat), intFree ctx c = .ok (.tcachePut n fill) →
      fill = none) := by
  unfold intFree
  by_cases h1 : (U64 - chunksizeW c.sizeWord) % U64 < c.addr ∨
      c.addr % MALLOC_ALIGNMENT ≠ 0
  · rw [if_pos h1]
    exact ⟨fun fill h => absurd h (by simp), fun n fill h => absurd h (by simp)⟩
  rw [if_neg h1]
  by_cases h2 : chunksizeW c.sizeWord < MINSIZE ∨
      chunksizeW c.sizeWord % MALLOC_ALIGNMENT ≠ 0
  · rw [if_pos h2]
    exact ⟨fun fill h => absurd h (by simp), fun n fill h => absurd h (by simp)⟩
  rw [if_neg h2]
  by_cases h3 : ctx.tcacheEnabled = true ∧
      csize2tidx (chunksizeW c.sizeWord) < ctx.tcacheBins
  · rw [if_pos h3]
    by_cases h4 : c.keyWord = ctx.tcacheKeyVal ∧
        (c.addr + 2 * SIZE_SZ) ∈ ctx.entries (csize2tidx (chunksizeW c.sizeWord))
    · rw [if_pos h4]
      exact ⟨fun fill h => absurd h (by simp), fun n fill h => absurd h (by simp)⟩
    rw [if_neg h4]
    by_cases h5 : ctx.counts (csize2tidx (chunksizeW c.sizeWord)) < ctx.tcacheCount
    · rw [if_pos h5]
      refine ⟨fun fill h => absurd h (by simp), fun n fill h => ?_⟩
      injection h with h
      injection h with h1 h2
      exact h2.symm
    · rw [if_neg h5]
      exact ⟨fun fill h => intFreeFast_fastbinPush_fill ctx c _ fill h,
        fun n fill h => absurd h (intFreeFast_no_tcachePut ctx c _ n fill)⟩
  · rw [if_neg h3]
    exact ⟨fun fill h => intFreeFast_fastbinPush_fill ctx c _ fill h,
      fun n fill h => absurd h (intFreeFast_no_tcachePut ctx c _ n fill)⟩

theorem drainFillOk_abort (ctx : DrainCtx) (t : DrainAbort) :
    drainFillOk ctx (.abort t) :=
  ⟨fun _ h => absurd h (by simp), fun _ _ h => absurd h (by simp)⟩

theorem drainFillOk_split (ctx : DrainCtx) (f : Option Nat) :
    drainFillOk ctx (.splitReturn f) :=
  ⟨fun _ h => absurd h (by simp), fun _ _ h => absurd h (by simp)⟩

theorem drainFillOk_noFit (ctx : DrainCtx) : drainFillOk ctx .noFit :=
  ⟨fun _ h => absurd h (by simp), fun _ _ h => absurd h (by simp)⟩

theorem drainFillOk_exact (ctx : DrainCtx) :
    drainFillOk ctx (.exactReturn (alloc_perturbFill ctx.perturb)) :=
  ⟨fun fill h => by injection h with h; exact h.symm,
    fun _ _ h => absurd h (by simp)⟩

theorem drainFillOk_cached (ctx : DrainCtx) (why : DrainExit) :
    drainFillOk ctx (.cachedReturn why none) :=
  ⟨fun _ h => absurd h (by simp),
    fun why2 fill h => by injection h with h1 h2; exact h2.symm⟩

theorem drainLoop_fillOk (ctx : DrainCtx) (tcCount : Nat) (rc : Bool)
    (iters ucount : Nat) (chunks : List UChunk) :
    drainFillOk ctx (drainLoop ctx tcCount rc iters ucount chunks) := by
  induction chunks generalizing tcCount rc iters ucount with
  | nil =>
    simp only [drainLoop]
    by_cases hrc : rc
    · rw [if_pos hrc]; exact drainFillOk_cached ctx .binExhausted
    · rw [if_neg hrc]; exact drainFillOk_noFit ctx
  | cons v rest ih =>
    simp only [drainLoop]
    by_cases hc1 : v.size ≤ 2 * SIZE_SZ ∨ ctx.sysMem < v.size
    · rw [if_pos hc1]; exact drainFillOk_abort ctx _
    rw [if_neg hc1]
    by_cases hc2 : chunksize_nomaskW v.nextWord < 2 * SIZE_SZ ∨
        ctx.sysMem < chunksize_nomaskW v.nextWord
    · rw [if_pos hc2]; exact drainFillOk_abort ctx _
    rw [if_neg hc2]
    by_cases hc3 : v.nextPrevSize - v.nextPrevSize % 8 ≠ v.size
    · rw [if_pos hc3]; exact drainFillOk_abort ctx _
    rw [if_neg hc3]
    by_cases hc4 : v.linksOk = false
    · rw [if_pos hc4]; exact drainFillOk_abort ctx _
    rw [if_neg hc4]
    by_cases hc5 : v.nextWord % 2 = 1
    · rw [if_pos hc5]; exact drainFillOk_abort ctx _
    rw [if_neg hc5]
    by_cases hc6 : in_smallbin_range ctx.nb ∧ rest = [] ∧
        v.isLastRemainder = true ∧ ctx.nb + MINSIZE < v.size
    · rw [if_pos hc6]; exact drainFillOk_split ctx _
    rw [if_neg hc6]
    by_cases hc7 : v.size = ctx.nb
    · rw [if_pos hc7]
      by_cases hc8 : tcacheAvailable ctx ∧ tcCount < ctx.tcacheCount
      · rw [if_pos hc8]; exact ih _ _ _ _
      · rw [if_neg hc8]; exact drainFillOk_exact ctx
    rw [if_neg hc7]
    by_cases hc9 : rc = true ∧ 0 < ctx.tcacheUnsortedLimit ∧
        ctx.tcacheUnsortedLimit < ucount + 1
    · rw [if_pos hc9]; exact drainFillOk_cached ctx _
    rw [if_neg hc9]
    by_cases hc10 : MAX_ITERS ≤ iters + 1
    · rw [if_pos hc10]
      by_cases hrc : rc
      · rw [if_pos hrc]; exact drainFillOk_cached ctx _
      · rw [if_neg hrc]; exact drainFillOk_noFit ctx
    · rw [if_neg hc10]; exact ih _ _ _ _

/-- C2, amended.  With a non-zero perturb byte, every chunk returned by
a non-tcache allocation path is filled with `value ^ 0xff` and every
chunk taken by a non-tcache release path is filled with `value`; the
tcache paths are the exceptions: the tcache hit of `__libc_malloc`, the
`tcache_get` returns of the unsorted drain, and the `tcache_put` of
`_int_free` all move the chunk with its payload untouched.  Precisely:
a fast-bin push always carries the `free_perturb` fill; a tcache put
never fills; a tcache hit never fills; a direct unsorted-drain return
always carries the `alloc_perturb` fill; a cached drain return never
fills; and for `perturb ≠ 0` those fills are `some perturb` and
`some (perturb ^ 0xff)`. -/
theorem C2_perturb_path_coverage :
    (∀ (ctx : FreeCtx) (c : FreeChunk) (fill : Option Nat),
      intFree ctx c = .ok (.fastbinPush fill) →
        fill = free_perturbFill ctx.perturbByte) ∧
    (∀ (ctx : FreeCtx) (c : FreeChunk) (n : Nat) (fill : Option Nat),
      intFree ctx c = .ok (.tcachePut n fill) → fill = none) ∧
    (∀ (ctx : FreeCtx) (bytes n : Nat) (fill : Option Nat),
      libcMallocGate ctx bytes = .tcacheHit n fill → fill = none) ∧
    (∀ (ctx : DrainCtx) (tcCount : Nat) (rc : Bool) (iters ucount : Nat)
        (chunks : List UChunk) (fill : Option Nat),
      drainLoop ctx tcCount rc iters ucount chunks = .exactReturn fill →
        fill = alloc_perturbFill ctx.perturb) ∧
    (∀ (ctx : DrainCtx) (tcCount : Nat) (rc : Bool) (iters ucount : Nat)
        (chunks : List UChunk) (why : DrainExit) (fill : Option Nat),
      drainLoop ctx tcCount rc iters ucount chunks = .cachedReturn why fill →
        fill = none) ∧
    (∀ p : Nat, p ≠ 0 →
      free_perturbFill p = some p ∧ alloc_perturbFill p = some (p ^^^ 255)) := by
  refine ⟨?_, ?_, ?_, ?_, ?_, ?_⟩
  · intro ctx c fill h
    exact (intFree_result_fill ctx c).1 fill h
  · intro ctx c n fill h
    exact (intFree_result_fill ctx c).2 n fill h
  · intro ctx bytes n fill h
    unfold libcMallocGate at h
    revert h
    cases checked_request2size bytes with
    | none => intro h; exact absurd h (by simp)
    | some t =>
      intro h
      simp only [] at h
      by_cases hcond : csize2tidx t < ctx.tcacheBins ∧ ctx.tcacheEnabled = true ∧
          0 < ctx.counts (csize2tidx t)
      · rw [if_pos hcond] at h
        injection h with h1 h2
        exact h2.symm
      · rw [if_neg hcond] at h
        exact absurd h (by simp)
  · intro ctx tcCount rc iters ucount chunks fill h
    exact (drainLoop_fillOk ctx tcCount rc iters ucount chunks).1 fill h
  · intro ctx tcCount rc iters ucount chunks why fill h
    exact (drainLoop_fillOk ctx tcCount rc iters ucount chunks).2 why fill h
  · intro p hp
    constructor <;> simp [free_perturbFill, alloc_perturbFill, hp]

/-- C2, witness: the amended theorem applied at perturb byte 65 and at a
concrete fast-bin release (tcache bucket full) carrying the fill
`some 65`. -/
theorem C2_perturb_path_coverage_witness :
    (free_perturbFill 65 = some 65 ∧ alloc_perturbFill 65 = some (65 ^^^ 255)) ∧
    (some 65 : Option Nat) =
      free_perturbFill ({ perturbCtx with counts := fun _ => 7 } : FreeCtx).perturbByte :=
  ⟨C2_perturb_path_coverage.2.2.2.2.2 65 (by decide),
    C2_perturb_path_coverage.1 { perturbCtx with counts := fun _ => 7 }
      (FreeChunk.mk 1048576 48 0 17) (some 65) (by decide)⟩

/-- C4, counterexample.  A small request of 32 with the sole unsorted
chunk equal to the last remainder and `T.size = request + MINSIZE = 64`:
the claim's `T.size ≥ request + minimum` holds, but the code requires a
strict inequality (line 3941), so the branch is not taken and no split
happens. -/
theorem C4_last_remainder_counterexample :
    in_smallbin_range 32 ∧
    (32 : Nat) + MINSIZE ≤ 64 ∧
    lastRemainderPath (LastRemInput.mk 32 1048576 64 true true true) = none := by
  decide

theorem lor_small_eq_add (a b : Nat) (ha : a % 16 = 0) (hb : b < 16) :
    a ||| b = a + b := by
  have h16 : (2 : Nat) ^ 4 = 16 := by norm_num
  obtain ⟨q, hq⟩ : ∃ q, a = 2 ^ 4 * q := ⟨a / 16, by rw [h16]; omega⟩
  subst hq
  exact (Nat.mul_add_lt_is_or (by rw [h16]; omega) q).symm

/-- C4, amended.  Under the branch conditions with the strict inequality
`T.size > request + MINSIZE`, the tail is split: the request is carved
off the front (the returned pointer is `victim + 2 * SIZE_SZ`, the
victim's masked size becomes `nb` with its P flag set), the remainder
starts at `victim + nb` with masked size `T.size - nb`, P flag set and a
boundary tag equal to its size, and it becomes both the new
last-remainder and the sole unsorted entry. -/
theorem C4_last_remainder_split (s : LastRemInput)
    (h1 : in_smallbin_range s.nb) (h2 : s.binSole = true)
    (h3 : s.isLastRemainder = true) (h4 : s.nb + MINSIZE < s.size)
    (ha : s.nb % MALLOC_ALIGNMENT = 0) (hs : s.size % MALLOC_ALIGNMENT = 0) :
    ∃ r : SplitResult, lastRemainderPath s = some r ∧
      r.retPtr = s.victimAddr + 2 * SIZE_SZ ∧
      chunksizeW r.victimHead = s.nb ∧
      prevInuseW r.victimHead ∧
      r.remainderAddr = s.victimAddr + s.nb ∧
      chunksizeW r.remainderHead = s.size - s.nb ∧
      prevInuseW r.remainderHead ∧
      r.remainderFoot = chunksizeW r.remainderHead ∧
      r.newLastRemainder = r.remainderAddr ∧
      r.unsortedSoleEntry = r.remainderAddr := by
  have hA : MALLOC_ALIGNMENT = 16 := rfl
  rw [hA] at ha hs
  have hd : (s.size - s.nb) % 16 = 0 := by omega
  have hvic : s.nb ||| PREV_INUSE |||
      (if s.mainArena then 0 else NON_MAIN_ARENA) =
      s.nb + (if s.mainArena then 1 else 5) := by
    rw [Nat.lor_assoc]
    by_cases hm : s.mainArena
    · rw [if_pos hm, if_pos hm]
      exact lor_small_eq_add s.nb (PREV_INUSE ||| 0) ha (by decide)
    · rw [if_neg hm, if_neg hm]
      exact lor_small_eq_add s.nb (PREV_INUSE ||| NON_MAIN_ARENA) ha (by decide)
  have hrem : (s.size - s.nb) ||| PREV_INUSE = (s.size - s.nb) + 1 :=
    lor_small_eq_add _ PREV_INUSE hd (by decide)
  refine ⟨{ retPtr := s.victimAddr + 2 * SIZE_SZ
            victimHead := s.nb ||| PREV_INUSE |||
              (if s.mainArena then 0 else NON_MAIN_ARENA)
            remainderAddr := s.victimAddr + s.nb
            remainderHead := (s.size - s.nb) ||| PREV_INUSE
            remainderFoot := s.size - s.nb
            newLastRemainder := s.victimAddr + s.nb
            unsortedSoleEntry := s.victimAddr + s.nb },
    ?_, rfl, ?_, ?_, rfl, ?_, ?_, ?_, rfl, rfl⟩
  · unfold lastRemainderPath
    rw [if_pos ⟨h1, h2, h3, h4⟩]
  · show chunksizeW (s.nb ||| PREV_INUSE |||
        (if s.mainArena then 0 else NON_MAIN_ARENA)) = s.nb
    rw [hvic]
    unfold chunksizeW
    by_cases hm : s.mainArena
    · rw [if_pos hm]; omega
    · rw [if_neg hm]; omega
  · show prevInuseW (s.nb ||| PREV_INUSE |||
        (if s.mainArena then 0 else NON_MAIN_ARENA))
    rw [hvic]
    unfold prevInuseW
    by_cases hm : s.mainArena
    · rw [if_pos hm]; omega
    · rw [if_neg hm]; omega
  · show chunksizeW ((s.size - s.nb) ||| PREV_INUSE) = s.size - s.nb
    rw [hrem]
    unfold chunksizeW
    omega
  · show prevInuseW ((s.size - s.nb) ||| PREV_INUSE)
    rw [hrem]
    unfold prevInuseW
    omega
  · show s.size - s.nb = chunksizeW ((s.size - s.nb) ||| PREV_INUSE)
    rw [hrem]
    unfold chunksizeW
    omega

/-- C4, witness: the amended theorem at request 32 against a 96-byte
last remainder in the main arena. -/
theorem C4_last_remainder_split_witness :
    ∃ r : SplitResult,
      lastRemainderPath (LastRemInput.mk 32 1048576 96 true true true) = some r ∧
      r.retPtr = 1048576 + 2 * SIZE_SZ ∧
      chunksizeW r.victimHead = 32 ∧
      prevInuseW r.victimHead ∧
      r.remainderAddr = 1048576 + 32 ∧
      chunksizeW r.remainderHead = 96 - 32 ∧
      prevInuseW r.remainderHead ∧
      r.remainderFoot = chunksizeW r.remainderHead ∧
      r.newLastRemainder = r.remainderAddr ∧
      r.unsortedSoleEntry = r.remainderAddr :=
  C4_last_remainder_split (LastRemInput.mk 32 1048576 96 true true true)
    (by decide) rfl rfl (by decide) (by decide) (by decide)

/-- C10, counterexample.  A one-page mapped chunk (`size word
4096 | IS_MMAPPED`, offset 0) and `n = 0`: the page count would not
change (`ALIGN_UP (32 + 0 + 8, 4096) = 4096`), yet
`REALLOC_ZERO_BYTES_FREES` makes `Reallocate (p, 0)` free the chunk and
return null instead of returning `p`. -/
theorem C10_realloc_counterexample :
    ¬ claimC10 0 (MmapChunk.mk 4096 0 4098) (MmapCounters.mk 1 4096 4096) 4096 ∧
    libcReallocMmapped 0 false (MmapChunk.mk 4096 0 4098) false
      (MmapCounters.mk 1 4096 4096) 4096 = .freedNull := by
  decide

/-- C10, amended.  For every request `n ≥ 1` (up to `PTRDIFF_MAX`) on a
well-formed, non-dumped page-mapped chunk: whenever
`ALIGN_UP (request2size n + offset + SIZE_SZ, pagesize)` equals the
chunk's current `offset + chunksize`, the reallocation returns the same
user pointer and hands back the chunk words and the mmap counters
exactly as they were — `mremap_chunk` returns `p` before `__mremap`,
`set_head` or any counter update. -/
theorem C10_realloc_mremap_inplace (bytes : Nat) (c : MmapChunk)
    (ctr : MmapCounters) (pagesize : Nat)
    (hb : 1 ≤ bytes) (hmax : bytes ≤ PTRDIFF_MAX)
    (hM : chunkIsMmappedW c.sizeWord)
    (hptr : ¬ ((U64 - chunksizeW c.sizeWord) % U64 < c.addr ∨
        c.addr % MALLOC_ALIGNMENT ≠ 0))
    (hblock : (c.addr - c.prevSize) % pagesize = 0)
    (htot : (c.prevSize + chunksizeW c.sizeWord) % pagesize = 0)
    (hpow : powerof2 ((c.addr + 2 * SIZE_SZ) % pagesize))
    (heq : ALIGN_UP (request2size bytes + c.prevSize + SIZE_SZ) pagesize =
        c.prevSize + chunksizeW c.sizeWord) :
    libcReallocMmapped bytes false c false ctr pagesize =
      .inPlace (c.addr + 2 * SIZE_SZ) c ctr := by
  have hg : mremapGate c (request2size bytes) pagesize = .unchanged := by
    unfold mremapGate
    rw [if_neg (by push_neg; exact ⟨hblock, htot, hpow⟩), if_pos heq.symm]
  unfold libcReallocMmapped
  rw [if_neg (by rintro ⟨h0, -⟩; omega),
    if_neg (by simp),
    if_neg (by rintro ⟨hx, -⟩; exact hptr hx),
    if_neg (Nat.not_lt.mpr hmax),
    if_pos hM,
    if_neg (by simp),
    hg]

/-- C10, witness: a 100-byte reallocation of a one-page mapped chunk
returns the original pointer with counters untouched. -/
theorem C10_realloc_mremap_inplace_witness :
    libcReallocMmapped 100 false (MmapChunk.mk 4096 0 4098) false
      (MmapCounters.mk 1 4096 4096) 4096 =
      .inPlace (4096 + 2 * SIZE_SZ) (MmapChunk.mk 4096 0 4098)
        (MmapCounters.mk 1 4096 4096) :=
  C10_realloc_mremap_inplace 100 (MmapChunk.mk 4096 0 4098)
    (MmapCounters.mk 1 4096 4096) 4096 (by decide) (by decide) (by decide)
    (by decide) (by decide) (by decide) (by decide) (by decide)

end MallocModel
